import Mathlib

/-!
# Verification of the provider-agnostic message-queue core

Shallow embedding, in Lean 4, of the queue abstraction: the shared data
model (`queue.types`), the in-memory driver (`in-memory.driver.ts`), the
SQS driver (`sqs.driver.ts`), the RabbitMQ driver (`rabbitmq.driver.ts`)
and the facade (`queue.service.ts`).  Timestamps are milliseconds since
the epoch, modelled as `Nat`; JavaScript `Map`s are association lists
with insert-or-replace semantics; the nondeterministic ingredients
(uuids, wall-clock readings, backend responses) are explicit parameters.
-/

namespace NestQueue

/-! ## Association-list maps (JavaScript `Map` semantics) -/

/-- `Map.get`: first binding of the key, if any. -/
def mget {κ β : Type} [DecidableEq κ] : List (κ × β) → κ → Option β
  | [], _ => none
  | (k', v) :: rest, k => if k' = k then some v else mget rest k

/-- `Map.set`: replace the binding in place, or append a fresh one.
JavaScript `Map.set` keeps the original insertion position of an
existing key, which replace-in-place models exactly. -/
def mset {κ β : Type} [DecidableEq κ] : List (κ × β) → κ → β → List (κ × β)
  | [], k, v => [(k, v)]
  | (k', v') :: rest, k, v =>
    if k' = k then (k, v) :: rest else (k', v') :: mset rest k v

/-- `map.get(k) ?? d`. -/
def mgetD {κ β : Type} [DecidableEq κ] (m : List (κ × β)) (k : κ) (d : β) : β :=
  (mget m k).getD d

/-! ## Shared data model (`queue.types`) -/

/-- `PublishOptions` from `queue.types`.  `attributes` is the
`Record<string, string>` of caller metadata, kept as an ordered list of
key/value pairs. -/
structure PublishOptions where
  delaySeconds : Option Nat := none
  ttlSeconds : Option Nat := none
  correlationId : Option String := none
  attributes : Option (List (String × String)) := none
deriving DecidableEq, Repr

/-- `QueueMessage<T>` from `queue.types`; `Date`s are epoch milliseconds. -/
structure QueueMessage (α : Type) where
  id : String
  payload : α
  publishedAt : Nat
  expiresAt : Option Nat
  receipt : String
  attributes : Option (List (String × String))
  correlationId : Option String
deriving DecidableEq, Repr

/-- `StoredMessage<T>` of the in-memory driver: a `QueueMessage` plus the
queue it belongs to. -/
structure StoredMessage (α : Type) extends QueueMessage α where
  queue : String
deriving DecidableEq, Repr

/-- JavaScript truthiness of an optional number (`undefined` and `0` are
falsy), as used by the guards `options?.delaySeconds` and
`options?.ttlSeconds` in the in-memory driver. -/
def truthyNat : Option Nat → Bool
  | some n => n ≠ 0
  | none => false

/-- JavaScript truthiness of an optional string (`undefined` and the
empty string are falsy). -/
def truthyStr : Option String → Bool
  | some s => s ≠ ""
  | none => false

/-! ## In-memory driver (`in-memory.driver.ts`) -/

/-- The in-memory driver's backing store `queues`: one ordered buffer
per queue name (line 19). -/
structure InMemoryState (α : Type) where
  queues : List (String × List (StoredMessage α))
deriving DecidableEq, Repr

/-- The message object built by `InMemoryQueueDriver.publish`
(lines 27-39): `expiresAt` is set only for a truthy `ttlSeconds`;
`attributes` and `correlationId` are copied verbatim from the options.
`now`, `id` and `receipt` stand for `new Date()` and the two
`randomUUID()` calls. -/
def mkStoredMessage {α : Type} (queue : String) (payload : α)
    (options : Option PublishOptions) (now : Nat) (id receipt : String) :
    StoredMessage α :=
  { id := id
    receipt := receipt
    payload := payload
    publishedAt := now
    expiresAt :=
      if truthyNat (options.bind (·.ttlSeconds)) then
        some (now + (options.bind (·.ttlSeconds)).getD 0 * 1000)
      else none
    attributes := options.bind (·.attributes)
    correlationId := options.bind (·.correlationId)
    queue := queue }

/-- `InMemoryQueueDriver.push` (lines 160-164): append at the tail of
the queue's buffer. -/
def pushInMemory {α : Type} (s : InMemoryState α) (queue : String)
    (message : StoredMessage α) : InMemoryState α :=
  { queues := mset s.queues queue (mgetD s.queues queue [] ++ [message]) }

/-- `InMemoryQueueDriver.publish` (lines 22-51) restricted to the
non-delayed branch: a falsy `delaySeconds` pushes the message at once
(line 44).  Returns the message together with the new store. -/
def publishInMemory {α : Type} (s : InMemoryState α) (queue : String)
    (payload : α) (options : Option PublishOptions) (now : Nat)
    (id receipt : String) : StoredMessage α × InMemoryState α :=
  let message := mkStoredMessage queue payload options now id receipt
  if truthyNat (options.bind (·.delaySeconds)) then (message, s)
  else (message, pushInMemory s queue message)

/-- The expiry test of `InMemoryQueueDriver.pull` (line 62):
`msg.expiresAt && msg.expiresAt.getTime() <= now`. -/
def isExpired {α : Type} (now : Nat) (m : StoredMessage α) : Bool :=
  match m.expiresAt with
  | some e => e ≤ now
  | none => false

/-- `InMemoryQueueDriver.pull` (lines 53-81): partition the buffer into
unexpired and expired entries preserving order, drop the expired ones,
splice the first `maxMessages` unexpired entries out and store the rest
back.  Returns the removed messages and the new store. -/
def pullInMemory {α : Type} (s : InMemoryState α) (queue : String)
    (maxMessages : Nat) (now : Nat) :
    List (StoredMessage α) × InMemoryState α :=
  let stored := mgetD s.queues queue []
  let valid := stored.filter (fun m => !(isExpired now m))
  (valid.take maxMessages,
    { queues := mset s.queues queue (valid.drop maxMessages) })

/-- `InMemoryQueueDriver.ack` (lines 83-88): drop every entry of the
queue whose receipt matches. -/
def ackInMemory {α : Type} (s : InMemoryState α) (queue : String)
    (receipt : String) : InMemoryState α :=
  { queues := mset s.queues queue
      ((mgetD s.queues queue []).filter (fun m => m.receipt ≠ receipt)) }

/-- The per-message body of the in-memory subscription poll
(`in-memory.driver.ts` lines 112-130): on handler success an `autoAck`
subscription acks the receipt; on handler failure with `autoAck`
disabled the message is `unshift`ed back at the head of the queue's
buffer; on failure with `autoAck` enabled nothing happens (the message
is lost).  The handler outcome is the explicit flag `handlerOk`. -/
def processMessageInMemory {α : Type} (s : InMemoryState α)
    (queue : String) (message : StoredMessage α)
    (handlerOk autoAck : Bool) : InMemoryState α :=
  if handlerOk then
    if autoAck then ackInMemory s queue message.receipt else s
  else
    if autoAck then s
    else { queues := mset s.queues queue
            (message :: mgetD s.queues queue []) }

/-! ## SQS driver (`sqs.driver.ts`) — queue resolution and ack -/

/-- Backend oracle for the SQS client: the responses of
`GetQueueUrlCommand` (`none` models both a not-found error and a
response without `QueueUrl`) and `CreateQueueCommand` (`none` models a
response without `QueueUrl`). -/
structure SqsBackend where
  getQueueUrlResp : String → Option String
  createQueueResp : String → Option String

/-- Commands the SQS driver sends to its client. -/
inductive SqsCmd
  | getQueueUrl (queueName : String)
  | createQueue (queueName : String)
  | deleteMessage (queueUrl receipt : String)
deriving DecidableEq, Repr

/-- `SqsQueueDriver.ensureQueue` (lines 212-229): consult the per-driver
url cache, otherwise look the queue up, otherwise create it, caching a
successful resolution; a creation that returns no url is an error.
Returns the url, the updated cache and the commands sent. -/
def ensureQueue (cache : List (String × String)) (b : SqsBackend)
    (queue : String) :
    Except String (String × List (String × String) × List SqsCmd) :=
  match mget cache queue with
  | some url => .ok (url, cache, [])
  | none =>
    match b.getQueueUrlResp queue with
    | some url => .ok (url, mset cache queue url, [.getQueueUrl queue])
    | none =>
      match b.createQueueResp queue with
      | some url =>
        .ok (url, mset cache queue url,
          [.getQueueUrl queue, .createQueue queue])
      | none => .error ("Unable to create or find queue " ++ queue)

/-- `SqsQueueDriver.ack` (lines 133-141): resolve the queue url first,
then return without a delete for a falsy (empty) receipt, else send one
`DeleteMessageCommand`. -/
def sqsAck (cache : List (String × String)) (b : SqsBackend)
    (queue receipt : String) :
    Except String (List (String × String) × List SqsCmd) :=
  match ensureQueue cache b queue with
  | .error e => .error e
  | .ok (url, cache₂, cmds) =>
    if receipt = "" then .ok (cache₂, cmds)
    else .ok (cache₂, cmds ++ [.deleteMessage url receipt])

/-- `Except` success flag. -/
def exceptOk {ε γ : Type} : Except ε γ → Bool
  | .ok _ => true
  | .error _ => false

/-! ## RabbitMQ driver (`rabbitmq.driver.ts`, src/unnamed/part_003) -/

/-- `parseInt(receipt, 10)` of `RabbitMqQueueDriver.ack`; `none` stands
for `NaN` on a non-numeric receipt. -/
def parseReceiptTag (receipt : String) : Option Nat :=
  receipt.toNat?

/-- Commands the RabbitMQ driver issues on its channel. -/
inductive RabbitCmd
  | ackTag (deliveryTag : Option Nat) (multiple : Bool)
deriving DecidableEq, Repr

/-- `RabbitMqQueueDriver.ack` (part_003 lines 210-215): parse the
receipt as a delivery tag and unconditionally issue one channel ack —
there is no error path for unknown, stale or repeated receipts. -/
def rabbitAck (receipt : String) : List RabbitCmd :=
  [.ackTag (parseReceiptTag receipt) false]

/-! ## Facade (`queue.service.ts`) -/

/-- `SubscribeOptions` from `queue.types`. -/
structure SubscribeOptions where
  maxMessages : Option Nat := none
  pollIntervalMs : Option Nat := none
  autoAck : Option Bool := none
deriving DecidableEq, Repr

/-- The error of `QueueService.getDriver`: a NestJS
`BadRequestException` (HTTP 400, a caller error). -/
inductive ServiceError
  | badRequest (msg : String)
deriving DecidableEq, Repr

/-- A call forwarded to a driver, with the exact arguments the facade
passed on. -/
inductive DriverCall (α : Type)
  | publish (queue : String) (payload : α) (options : Option PublishOptions)
  | pull (queue : String) (maxMessages : Option Nat)
  | ack (queue : String) (receipt : String)
  | subscribe (queue : String) (options : Option SubscribeOptions)
deriving DecidableEq, Repr

/-- The message of the `BadRequestException` thrown by
`QueueService.getDriver` (lines 23-25). -/
def invalidProviderMsg {δ : Type} (drivers : List (String × δ))
    (provider : String) : String :=
  "Invalid queue provider: " ++ provider ++ ". Available providers: " ++
    String.intercalate ", " (drivers.map (·.1))

/-- `QueueService.getDriver` (lines 20-28): look the provider up in the
injected driver map; throw a `BadRequestException` when absent. -/
def getDriver {δ : Type} (drivers : List (String × δ))
    (provider : String) : Except ServiceError δ :=
  match mget drivers provider with
  | some d => .ok d
  | none => .error (.badRequest (invalidProviderMsg drivers provider))

/-- `QueueService.publish` (lines 30-38): resolve the driver, then
forward the call unchanged. -/
def servicePublish {δ α : Type} (drivers : List (String × δ))
    (provider queue : String) (payload : α)
    (options : Option PublishOptions) :
    Except ServiceError (δ × DriverCall α) :=
  (getDriver drivers provider).map
    fun d => (d, .publish queue payload options)

/-- `QueueService.pull` (lines 40-47). -/
def servicePull {δ : Type} (α : Type) (drivers : List (String × δ))
    (provider queue : String) (maxMessages : Option Nat) :
    Except ServiceError (δ × DriverCall α) :=
  (getDriver drivers provider).map fun d => (d, .pull queue maxMessages)

/-- `QueueService.ack` (lines 49-56). -/
def serviceAck {δ : Type} (α : Type) (drivers : List (String × δ))
    (provider queue receipt : String) :
    Except ServiceError (δ × DriverCall α) :=
  (getDriver drivers provider).map fun d => (d, .ack queue receipt)

/-- `QueueService.subscribe` (lines 58-66). -/
def serviceSubscribe {δ : Type} (α : Type) (drivers : List (String × δ))
    (provider queue : String) (options : Option SubscribeOptions) :
    Except ServiceError (δ × DriverCall α) :=
  (getDriver drivers provider).map fun d => (d, .subscribe queue options)

/-! ## In-memory subscription bookkeeping (`in-memory.driver.ts`) -/

/-- The subscription bookkeeping of the in-memory driver:
`flags` holds each subscription closure's `isActive` flag (line 101,
one per `subscribe` call, identified here by a number), `timeouts` is
the driver-level `subscriptions` map keyed by queue name (line 20), and
`cancelled` records the timer ids passed to `clearTimeout`. -/
structure InMemorySubsState where
  flags : List (Nat × Bool)
  timeouts : List (String × List Nat)
  cancelled : List Nat
deriving DecidableEq, Repr

/-- The `unsubscribe` closure returned by
`InMemoryQueueDriver.subscribe` (lines 150-156), for subscription
`subId` on `queue`: set the closure's `isActive` to false, call
`clearTimeout` on every timer id bookkept for the queue, and reset the
queue's timer list to `[]`. -/
def unsubscribeInMemoryDriver (s : InMemorySubsState) (subId : Nat)
    (queue : String) : InMemorySubsState :=
  { flags := mset s.flags subId false
    timeouts := mset s.timeouts queue []
    cancelled := s.cancelled ++ mgetD s.timeouts queue [] }

/-- The SQS `MessageAttributeValue` payload
(`{ DataType: 'String', StringValue: value }`). -/
structure MsgAttrValue where
  dataType : String
  stringValue : String
deriving DecidableEq, Repr

/-- The inner `reduce` of `SqsQueueDriver.toMessageAttributes`
(lines 233-240): fold the caller's attributes into an object, object
spread being insert-or-replace. -/
def sqsAttrEntries (kvs : List (String × String)) :
    List (String × MsgAttrValue) :=
  kvs.foldl (fun acc kv => mset acc kv.1 ⟨"String", kv.2⟩) []

/-- `SqsQueueDriver.toMessageAttributes` (lines 231-248): the encoded
attributes, with a truthy `correlationId` spread in last under the key
`correlationId`. -/
def toMessageAttributes (options : Option PublishOptions) :
    List (String × MsgAttrValue) :=
  let attrs : List (String × MsgAttrValue) :=
    match options.bind (·.attributes) with
    | some kvs => sqsAttrEntries kvs
    | none => []
  match options.bind (·.correlationId) with
  | some cid =>
    if cid ≠ "" then mset attrs "correlationId" ⟨"String", cid⟩ else attrs
  | none => attrs

/-- `SqsQueueDriver.pull`, correlation id extraction (line 110):
`msg.MessageAttributes?.correlationId?.StringValue`. -/
def sqsDecodeCorrelationId (mattrs : List (String × MsgAttrValue)) :
    Option String :=
  (mget mattrs "correlationId").map (·.stringValue)

/-- One step of the attribute-reconstruction `reduce` of
`SqsQueueDriver.pull` (lines 111-119): keep an entry when its key is
not `correlationId` and its `StringValue` is truthy. -/
def sqsDecodeAttrStep (acc : List (String × String))
    (kv : String × MsgAttrValue) : List (String × String) :=
  if kv.1 ≠ "correlationId" ∧ kv.2.stringValue ≠ "" then
    mset acc kv.1 kv.2.stringValue
  else acc

/-- The attribute reconstruction of `SqsQueueDriver.pull`
(lines 111-119). -/
def sqsDecodeAttributes (mattrs : List (String × MsgAttrValue)) :
    List (String × String) :=
  mattrs.foldl sqsDecodeAttrStep []

/-- The message object returned by `SqsQueueDriver.publish`
(lines 62-78); `respMessageId`/`respSequenceNumber` are the send
response fields. -/
def sqsPublishMessage {α : Type} (respMessageId respSequenceNumber :
    Option String) (now : Nat) (payload : α)
    (options : Option PublishOptions) : QueueMessage α :=
  { id := respMessageId.getD ""
    receipt := (respSequenceNumber.orElse fun _ => respMessageId).getD ""
    payload := payload
    publishedAt := now
    expiresAt := (options.bind (·.ttlSeconds)).map fun t => now + t * 1000
    attributes := options.bind (·.attributes)
    correlationId := options.bind (·.correlationId) }

/-- The message object returned by `RabbitMqQueueDriver.publish`
(part_003 lines 104-155): `correlationId` is
`options?.correlationId || messageId`, so a missing or empty caller
correlation id is replaced by the generated message id; `attributes`
are returned verbatim; `msgId` stands for the generated
`${Date.now()}-${random}` identifier. -/
def rabbitPublishMessage {α : Type} (msgId : String) (now : Nat)
    (payload : α) (options : Option PublishOptions) : QueueMessage α :=
  { id := msgId
    receipt := msgId
    payload := payload
    publishedAt := now
    expiresAt := (options.bind (·.ttlSeconds)).map fun t => now + t * 1000
    attributes := options.bind (·.attributes)
    correlationId := some
      (match options.bind (·.correlationId) with
        | some c => if c ≠ "" then c else msgId
        | none => msgId) }

/-! ## Subscription poll lifecycle (C7) -/

/-- Phase of one subscription's poll task. -/
inductive PollPhase
  | idle
  | scheduled
  | running
deriving DecidableEq, Repr

/-- One subscription's lifecycle state: the closure's `isActive` flag
(in-memory line 101, SQS line 156) and the poll task phase —
`scheduled` means a `setTimeout(poll, pollIntervalMs)` timer is
pending, `running` means the async poll body is in flight (possibly
suspended at an await). -/
structure SubState where
  active : Bool
  phase : PollPhase
deriving DecidableEq, Repr

/-- The `unsubscribe` closure (in-memory lines 150-156, SQS
lines 201-208): set `isActive` to false and `clearTimeout` the pending
poll timer; an in-flight poll body is untouched. -/
def unsubscribeSub (s : SubState) : SubState :=
  { active := false
    phase :=
      match s.phase with
      | .scheduled => .idle
      | p => p }

/-- Observable actions of the poll lifecycle. -/
inductive PollAct
  | pullExec
  | skipInactive
  | reschedule
  | finishNoSched
  | unsub
deriving DecidableEq, Repr

/-- Small-step semantics of the poll loop, common to the in-memory
driver (lines 101-157) and the SQS driver (lines 155-209).  The code
between suspension points runs atomically (cooperative runtime): a
fired timer first checks `isActive` (line 104 / 161) and only then
pulls; a finishing body checks `isActive` (line 136 / 187) and only
then reschedules. -/
inductive PollStep : SubState → PollAct → SubState → Prop
  | firePull {s : SubState} (ha : s.active = true)
      (hp : s.phase = .scheduled) :
      PollStep s .pullExec ⟨true, .running⟩
  | fireSkip {s : SubState} (ha : s.active = false)
      (hp : s.phase = .scheduled) :
      PollStep s .skipInactive ⟨false, .idle⟩
  | resched {s : SubState} (ha : s.active = true)
      (hp : s.phase = .running) :
      PollStep s .reschedule ⟨true, .scheduled⟩
  | finish {s : SubState} (ha : s.active = false)
      (hp : s.phase = .running) :
      PollStep s .finishNoSched ⟨false, .idle⟩
  | unsub {s : SubState} : PollStep s .unsub (unsubscribeSub s)

/-- Reflexive-transitive closure of `PollStep` with the action list. -/
inductive PollTrace : SubState → List PollAct → SubState → Prop
  | refl (s : SubState) : PollTrace s [] s
  | step {s s₁ s₂ : SubState} {a : PollAct} {acts : List PollAct}
      (h : PollStep s a s₁) (ht : PollTrace s₁ acts s₂) :
      PollTrace s (a :: acts) s₂

/-- The in-memory driver with wall-clock time: the store, the current
time (ms) and the pending `setTimeout(() => this.push(queue, message),
delaySeconds * 1000)` callbacks scheduled by delayed publishes
(lines 41-42), each recorded with its earliest firing time. -/
structure TimedState (α : Type) where
  time : Nat
  mem : InMemoryState α
  pending : List (Nat × String × StoredMessage α)

/-- Actions of the timed in-memory driver. -/
inductive TimedAct (α : Type)
  | publish (queue : String) (payload : α)
      (options : Option PublishOptions) (uuid rcpt : String)
  | fireDelayed (fireAt : Nat) (queue : String)
      (message : StoredMessage α)
  | pull (queue : String) (maxMessages : Nat)
  | ack (queue : String) (receipt : String)
  | tick (dt : Nat)

/-- Timed small-step semantics of the in-memory driver.  `publish` with
falsy `delaySeconds` pushes immediately (line 44); with a non-zero
delay it only schedules the insertion (line 42) — the message is not in
any buffer.  A scheduled insertion fires no earlier than its delay
(timers never fire early); `pull`/`ack` act at the current time; `tick`
advances the clock. -/
inductive TimedStep {α : Type} [DecidableEq α] :
    TimedState α → TimedAct α → TimedState α → Prop
  | publishNow {s : TimedState α} {queue : String} {payload : α}
      {options : Option PublishOptions} {uuid rcpt : String}
      (h : truthyNat (options.bind (·.delaySeconds)) = false) :
      TimedStep s (.publish queue payload options uuid rcpt)
        { s with
          mem :=
            pushInMemory s.mem queue
              (mkStoredMessage queue payload options s.time uuid rcpt) }
  | publishDelayed {s : TimedState α} {queue : String} {payload : α}
      {options : Option PublishOptions} {uuid rcpt : String} {d : Nat}
      (hd : options.bind (·.delaySeconds) = some d) (hpos : d ≠ 0) :
      TimedStep s (.publish queue payload options uuid rcpt)
        { s with
          pending :=
            (s.time + d * 1000, queue,
                mkStoredMessage queue payload options s.time uuid rcpt)
              :: s.pending }
  | fireDelayed {s : TimedState α} {t : Nat} {queue : String}
      {message : StoredMessage α}
      (hmem : (t, queue, message) ∈ s.pending) (ht : t ≤ s.time) :
      TimedStep s (.fireDelayed t queue message)
        { s with
          mem := pushInMemory s.mem queue message
          pending := s.pending.erase (t, queue, message) }
  | pull {s : TimedState α} {queue : String} {k : Nat} :
      TimedStep s (.pull queue k)
        { s with mem := (pullInMemory s.mem queue k s.time).2 }
  | ack {s : TimedState α} {queue receipt : String} :
      TimedStep s (.ack queue receipt)
        { s with mem := ackInMemory s.mem queue receipt }
  | tick {s : TimedState α} (dt : Nat) :
      TimedStep s (.tick dt) { s with time := s.time + dt }

/-- Reflexive-transitive closure of `TimedStep`. -/
inductive TimedTrace {α : Type} [DecidableEq α] :
    TimedState α → List (TimedAct α) → TimedState α → Prop
  | refl (s : TimedState α) : TimedTrace s [] s
  | step {s s₁ s₂ : TimedState α} {a : TimedAct α}
      {acts : List (TimedAct α)}
      (h : TimedStep s a s₁) (ht : TimedTrace s₁ acts s₂) :
      TimedTrace s (a :: acts) s₂

/-- The uuid a publish action would stamp on its message. -/
def publishUuid {α : Type} : TimedAct α → Option String
  | .publish _ _ _ uuid _ => some uuid
  | _ => none

/-- The message with id `msgId` is out of every buffer while the clock
is before `deadline`, and can only be pending with a firing time at or
after `deadline`. -/
def absentUntil {α : Type} (msgId : String) (deadline : Nat)
    (s : TimedState α) : Prop :=
  (∀ t q m, (t, q, m) ∈ s.pending → m.id = msgId → deadline ≤ t) ∧
  (s.time < deadline →
    ∀ q m, m ∈ mgetD s.mem.queues q [] → m.id ≠ msgId)

theorem mget_mset_self {κ β : Type} [DecidableEq κ]
    (m : List (κ × β)) (k : κ) (v : β) : mget (mset m k v) k = some v := by
  induction m with
  | nil => simp [mget, mset]
  | cons hd tl ih =>
    obtain ⟨k', v'⟩ := hd
    by_cases h : k' = k
    · simp [mget, mset, h]
    · simp [mget, mset, h, ih]

theorem mget_mset_ne {κ β : Type} [DecidableEq κ]
    (m : List (κ × β)) (k k' : κ) (v : β) (h : k ≠ k') :
    mget (mset m k v) k' = mget m k' := by
  induction m with
  | nil => simp [mget, mset, h]
  | cons hd tl ih =>
    obtain ⟨k₀, v₀⟩ := hd
    by_cases hk : k₀ = k
    · subst hk
      simp [mget, mset, h]
    · simp only [mset, if_neg hk]
      by_cases hk' : k₀ = k'
      · simp [mget, hk']
      · simp [mget, hk', ih]

theorem mset_mset_self {κ β : Type} [DecidableEq κ]
    (m : List (κ × β)) (k : κ) (v v' : β) :
    mset (mset m k v) k v' = mset m k v' := by
  induction m with
  | nil => simp [mset]
  | cons hd tl ih =>
    obtain ⟨k₀, v₀⟩ := hd
    by_cases hk : k₀ = k
    · simp [mset, hk]
    · simp [mset, hk, ih]

theorem mgetD_mset_self {κ β : Type} [DecidableEq κ]
    (m : List (κ × β)) (k : κ) (v d : β) : mgetD (mset m k v) k d = v := by
  simp [mgetD, mget_mset_self]

theorem mgetD_mset_ne {κ β : Type} [DecidableEq κ]
    (m : List (κ × β)) (k k' : κ) (v : β) (d : β) (h : k ≠ k') :
    mgetD (mset m k v) k' d = mgetD m k' d := by
  simp [mgetD, mget_mset_ne m k k' v h]

/-- C1: on the in-memory backend, `publish(queue, payload)` with no
delay followed by `pull(queue)` returns exactly one message whose
payload is the published payload, and a second immediate `pull(queue)`
returns the empty sequence — the message was removed at pull time. -/
theorem publish_then_pull_inMemory {α : Type} (s : InMemoryState α)
    (q : String) (payload : α) (id receipt : String)
    (now now₁ now₂ : Nat)
    (hq : mgetD s.queues q [] = []) :
    (pullInMemory (publishInMemory s q payload none now id receipt).2
        q 1 now₁).1
      = [mkStoredMessage q payload none now id receipt] ∧
    ((pullInMemory (publishInMemory s q payload none now id receipt).2
        q 1 now₁).1.map (·.payload)) = [payload] ∧
    (pullInMemory
        (pullInMemory (publishInMemory s q payload none now id receipt).2
          q 1 now₁).2 q 1 now₂).1 = [] := by
  simp [publishInMemory, pushInMemory, pullInMemory, mkStoredMessage,
    isExpired, truthyNat, hq, mgetD_mset_self, mset_mset_self]

/-- Closed witness for `publish_then_pull_inMemory` at a concrete
input. -/
theorem publish_then_pull_inMemory_witness :
    mgetD (InMemoryState.queues (α := String) ⟨[]⟩) "test-queue" [] = [] ∧
    (pullInMemory
        (publishInMemory (α := String) ⟨[]⟩ "test-queue" "hello" none
          0 "id-1" "rcpt-1").2 "test-queue" 1 5).1
      = [mkStoredMessage "test-queue" "hello" none 0 "id-1" "rcpt-1"] :=
  ⟨by decide,
   (publish_then_pull_inMemory ⟨[]⟩ "test-queue" "hello" "id-1" "rcpt-1"
      0 5 9 (by decide)).1⟩

/-- C3 (amended): an in-memory pull returns at most `maxMessages`
messages, in publish (FIFO) order — the result is a sublist of the
buffer — and never returns a message whose expiry has passed; a stored
message is treated as gone (neither returned nor kept) exactly when
`expiresAt ≤ now` at pull time. -/
theorem pull_inMemory_bounds_order_expiry {α : Type} (s : InMemoryState α)
    (q : String) (k now : Nat) :
    (pullInMemory s q k now).1.length ≤ k ∧
    (pullInMemory s q k now).1.Sublist (mgetD s.queues q []) ∧
    (∀ m ∈ (pullInMemory s q k now).1, ∀ e, m.expiresAt = some e → now < e) ∧
    (∀ m ∈ mgetD s.queues q [],
      ((m ∈ (pullInMemory s q k now).1 ∨
        m ∈ mgetD (pullInMemory s q k now).2.queues q []) ↔
       isExpired now m = false)) := by
  refine ⟨?_, ?_, ?_, ?_⟩
  · simp [pullInMemory]
  · exact (List.take_sublist _ _).trans (List.filter_sublist _)
  · intro m hm e he
    have hmem := List.mem_of_mem_take hm
    have hpred := (List.mem_filter.mp hmem).2
    simp only [isExpired, he, Bool.not_eq_true'] at hpred
    simpa [he, decide_eq_false_iff_not] using hpred
  · intro m hm
    have hsplit :
        (m ∈ (pullInMemory s q k now).1 ∨
          m ∈ mgetD (pullInMemory s q k now).2.queues q []) ↔
        m ∈ (mgetD s.queues q []).filter (fun m => !(isExpired now m)) := by
      simp only [pullInMemory, mgetD_mset_self]
      constructor
      · rintro (h | h)
        · exact List.mem_of_mem_take h
        · exact List.mem_of_mem_drop h
      · intro h
        have h2 : m ∈ ((mgetD s.queues q []).filter
              (fun m => !(isExpired now m))).take k ++
            ((mgetD s.queues q []).filter
              (fun m => !(isExpired now m))).drop k := by
          rw [List.take_append_drop]
          exact h
        exact List.mem_append.mp h2
    rw [hsplit, List.mem_filter]
    simp [hm]

/-- C3 counterexample: the claim's boundary is wrong.  A message whose
`expiresAt` equals the pull instant (`now = expiresAt = 5000`) is
dropped by the code, although `now > expiresAt` is false, so "gone
exactly when now > expiresAt" fails at this input. -/
theorem pull_inMemory_expiry_boundary_counterexample :
    ¬ (((mkStoredMessage "q" "x" (some { ttlSeconds := some 5 }) 0 "i" "r")
          ∉ (pullInMemory (α := String) ⟨[("q",
              [mkStoredMessage "q" "x" (some { ttlSeconds := some 5 })
                0 "i" "r"])]⟩ "q" 1 5000).1 ∧
        (mkStoredMessage "q" "x" (some { ttlSeconds := some 5 }) 0 "i" "r")
          ∉ mgetD (pullInMemory (α := String) ⟨[("q",
              [mkStoredMessage "q" "x" (some { ttlSeconds := some 5 })
                0 "i" "r"])]⟩ "q" 1 5000).2.queues "q" []) ↔
       (5000 : Nat) > 5000) := by
  decide

/-- C4: when the handler throws on an in-memory delivery with
`autoAck = false`, the poller re-inserts the message at the head of the
queue's buffer, and the next poll (any positive `maxMessages`, message
not expired) redelivers it first. -/
theorem handler_failure_requeues_at_head {α : Type} (s : InMemoryState α)
    (q : String) (m : StoredMessage α) (now k : Nat)
    (hexp : isExpired now m = false) (hk : 1 ≤ k) :
    mgetD (processMessageInMemory s q m false false).queues q []
      = m :: mgetD s.queues q [] ∧
    ((pullInMemory (processMessageInMemory s q m false false) q k now).1).head?
      = some m := by
  constructor
  · simp [processMessageInMemory, mgetD_mset_self]
  · obtain ⟨k', rfl⟩ : ∃ k', k = k' + 1 :=
      ⟨k - 1, (Nat.succ_pred_eq_of_pos hk).symm⟩
    simp [processMessageInMemory, pullInMemory, mgetD_mset_self, hexp]

/-- Closed witness for `handler_failure_requeues_at_head` at a concrete
input. -/
theorem handler_failure_requeues_at_head_witness :
    isExpired 3
        (mkStoredMessage (α := String) "jobs" "payload" none 0 "i1" "r1")
      = false ∧
    1 ≤ 1 ∧
    ((pullInMemory
        (processMessageInMemory (α := String) ⟨[]⟩ "jobs"
          (mkStoredMessage "jobs" "payload" none 0 "i1" "r1") false false)
        "jobs" 1 3).1).head?
      = some (mkStoredMessage "jobs" "payload" none 0 "i1" "r1") :=
  ⟨by decide, by decide,
   (handler_failure_requeues_at_head ⟨[]⟩ "jobs"
      (mkStoredMessage "jobs" "payload" none 0 "i1" "r1") 3 1
      (by decide) (by decide)).2⟩

/-- C2: `ack` is idempotent and total on every driver.  In-memory:
acking the same receipt twice equals acking it once, and acking a
receipt that matches no stored message leaves every queue's buffer
unchanged.  SQS: whether `ack` succeeds never depends on the receipt
(an unknown or empty receipt is silently accepted).  RabbitMQ: every
receipt, numeric or not, produces exactly one channel ack and no
error. -/
theorem ack_idempotent_and_total {α : Type} (s : InMemoryState α)
    (q receipt : String) (cache : List (String × String)) (b : SqsBackend)
    (sq r r' : String) :
    ackInMemory (ackInMemory s q receipt) q receipt
      = ackInMemory s q receipt ∧
    ((∀ m ∈ mgetD s.queues q [], m.receipt ≠ receipt) →
      ∀ q', mgetD (ackInMemory s q receipt).queues q' []
        = mgetD s.queues q' []) ∧
    exceptOk (sqsAck cache b sq r) = exceptOk (sqsAck cache b sq r') ∧
    (rabbitAck r).length = 1 := by
  refine ⟨?_, ?_, ?_, rfl⟩
  · simp only [ackInMemory, mgetD_mset_self, mset_mset_self,
      InMemoryState.mk.injEq]
    congr 1
    rw [List.filter_filter]
    simp
  · intro h q'
    by_cases hq : q' = q
    · subst hq
      simp only [ackInMemory, mgetD_mset_self]
      exact List.filter_eq_self.mpr (by
        intro m hm
        simpa using h m hm)
    · simp [ackInMemory, mgetD_mset_ne _ _ _ _ _ (fun hqq => hq hqq.symm)]
  · unfold sqsAck
    cases hens : ensureQueue cache b sq with
    | error e => simp [exceptOk]
    | ok out =>
      obtain ⟨url, cache₂, cmds⟩ := out
      by_cases hr : r = ""
      · by_cases hr' : r' = "" <;> simp [hr, hr', exceptOk]
      · by_cases hr' : r' = "" <;> simp [hr, hr', exceptOk]

/-- Closed witness for `ack_idempotent_and_total` at concrete inputs:
a stored message acked twice with its own receipt, an unknown receipt
on a one-message queue, an SQS ack with an empty receipt, a RabbitMQ
ack with a non-numeric receipt. -/
theorem ack_idempotent_and_total_witness :
    ackInMemory
        (ackInMemory (α := String)
          ⟨[("q", [mkStoredMessage "q" "x" none 0 "i1" "r1"])]⟩ "q" "r1")
        "q" "r1"
      = ackInMemory (α := String)
          ⟨[("q", [mkStoredMessage "q" "x" none 0 "i1" "r1"])]⟩ "q" "r1" ∧
    mgetD (ackInMemory (α := String)
        ⟨[("q", [mkStoredMessage "q" "x" none 0 "i1" "r1"])]⟩
        "q" "stale").queues "q" []
      = [mkStoredMessage "q" "x" none 0 "i1" "r1"] ∧
    (rabbitAck "not-a-number").length = 1 :=
  ⟨(ack_idempotent_and_total
      ⟨[("q", [mkStoredMessage "q" "x" none 0 "i1" "r1"])]⟩ "q" "r1"
      [] ⟨fun _ => none, fun _ => none⟩ "sq" "" "").1,
   by
    have h := (ack_idempotent_and_total (α := String)
        ⟨[("q", [mkStoredMessage "q" "x" none 0 "i1" "r1"])]⟩ "q" "stale"
        [] ⟨fun _ => none, fun _ => none⟩ "sq" "" "").2.1
      (by decide) "q"
    simpa using h,
   (ack_idempotent_and_total (α := String)
      ⟨[("q", [mkStoredMessage "q" "x" none 0 "i1" "r1"])]⟩ "q" "r1"
      [] ⟨fun _ => none, fun _ => none⟩ "sq" "not-a-number" "").2.2.2⟩

/-- C5: every facade operation on an unconfigured provider name fails
synchronously with a bad-request error and forwards nothing to any
driver; on a configured name it forwards the call, with its arguments
unchanged, to exactly that provider's driver. -/
theorem facade_dispatch {δ α : Type} (drivers : List (String × δ))
    (provider queue : String) (payload : α)
    (options : Option PublishOptions) (maxMessages : Option Nat)
    (receipt : String) (subOptions : Option SubscribeOptions) :
    (mget drivers provider = none →
      servicePublish drivers provider queue payload options
        = .error (.badRequest (invalidProviderMsg drivers provider)) ∧
      servicePull α drivers provider queue maxMessages
        = .error (.badRequest (invalidProviderMsg drivers provider)) ∧
      serviceAck α drivers provider queue receipt
        = .error (.badRequest (invalidProviderMsg drivers provider)) ∧
      serviceSubscribe α drivers provider queue subOptions
        = .error (.badRequest (invalidProviderMsg drivers provider))) ∧
    (∀ d, mget drivers provider = some d →
      servicePublish drivers provider queue payload options
        = .ok (d, .publish queue payload options) ∧
      servicePull α drivers provider queue maxMessages
        = .ok (d, .pull queue maxMessages) ∧
      serviceAck α drivers provider queue receipt
        = .ok (d, .ack queue receipt) ∧
      serviceSubscribe α drivers provider queue subOptions
        = .ok (d, .subscribe queue subOptions)) := by
  constructor
  · intro h
    refine ⟨?_, ?_, ?_, ?_⟩ <;>
      simp [servicePublish, servicePull, serviceAck, serviceSubscribe,
        getDriver, Except.map, h]
  · intro d h
    refine ⟨?_, ?_, ?_, ?_⟩ <;>
      simp [servicePublish, servicePull, serviceAck, serviceSubscribe,
        getDriver, Except.map, h]

/-- Closed witness for `facade_dispatch`: one configured provider name
(`memory`) forwarded, one unknown name (`bad`) rejected. -/
theorem facade_dispatch_witness :
    servicePublish (δ := Nat) [("memory", 0)] "bad" "q" "x" none
      = .error (.badRequest (invalidProviderMsg [("memory", (0 : Nat))]
          "bad")) ∧
    servicePublish (δ := Nat) [("memory", 0)] "memory" "q" "x" none
      = .ok (0, .publish "q" "x" none) :=
  ⟨((facade_dispatch [("memory", (0 : Nat))] "bad" "q" "x" none none "r"
      none).1 (by decide)).1,
   ((facade_dispatch [("memory", (0 : Nat))] "memory" "q" "x" none none "r"
      none).2 0 (by decide)).1⟩

/-- C6 failing input: subscriptions A (= 1) and B (= 2) are both active
on queue `q`, and B's next poll is pending as timer `7` in the driver's
per-queue bookkeeping.  Unsubscribing A clears timer `7` and empties
the queue's timer list, while B's `isActive` flag is still true: B's
pending scheduled poll is cancelled, not left unchanged. -/
theorem unsubscribe_cancels_sibling_pending_poll :
    mgetD (unsubscribeInMemoryDriver ⟨[(1, true), (2, true)],
        [("q", [7])], []⟩ 1 "q").timeouts "q" [] = [] ∧
    (unsubscribeInMemoryDriver ⟨[(1, true), (2, true)],
        [("q", [7])], []⟩ 1 "q").cancelled = [7] ∧
    mgetD (unsubscribeInMemoryDriver ⟨[(1, true), (2, true)],
        [("q", [7])], []⟩ 1 "q").flags 2 false = true := by
  decide

/-- Queue resolution only looks up or creates queues: it never deletes
a message. -/
theorem ensureQueue_no_delete (cache : List (String × String))
    (b : SqsBackend) (q : String)
    (out : String × List (String × String) × List SqsCmd)
    (h : ensureQueue cache b q = .ok out) :
    ∀ url r, SqsCmd.deleteMessage url r ∉ out.2.2 := by
  intro url r
  unfold ensureQueue at h
  cases hc : mget cache q with
  | some u => rw [hc] at h; cases h; simp
  | none =>
    rw [hc] at h
    cases hg : b.getQueueUrlResp q with
    | some u => rw [hg] at h; cases h; simp
    | none =>
      rw [hg] at h
      cases hcr : b.createQueueResp q with
      | some u => rw [hcr] at h; cases h; simp
      | none => rw [hcr] at h; cases h

/-- C10: an SQS `ack` with an empty receipt issues no
`DeleteMessageCommand`, yet queue-url resolution runs before the
empty-receipt check — on a cache miss with a not-found lookup, the
no-op ack still creates the queue. -/
theorem sqsAck_empty_receipt_no_delete_still_resolves
    (cache : List (String × String)) (b : SqsBackend) (q : String) :
    (∀ out, sqsAck cache b q "" = .ok out →
      ∀ url r, SqsCmd.deleteMessage url r ∉ out.2) ∧
    (mget cache q = none → b.getQueueUrlResp q = none →
      ∀ url, b.createQueueResp q = some url →
      sqsAck cache b q ""
        = .ok (mset cache q url, [.getQueueUrl q, .createQueue q])) := by
  constructor
  · intro out hout url r
    unfold sqsAck at hout
    cases hens : ensureQueue cache b q with
    | error e => rw [hens] at hout; cases hout
    | ok res =>
      obtain ⟨u, c₂, cmds⟩ := res
      rw [hens] at hout
      simp only [if_pos rfl] at hout
      cases hout
      exact ensureQueue_no_delete cache b q (u, c₂, cmds) hens url r
  · intro hmiss hget url hcreate
    simp [sqsAck, ensureQueue, hmiss, hget, hcreate]

/-- Closed witness for `sqsAck_empty_receipt_no_delete_still_resolves`:
empty cache, lookup misses, creation succeeds — the empty-receipt ack
returns only the lookup and creation commands and caches the new
url. -/
theorem sqsAck_empty_receipt_witness :
    sqsAck [] ⟨fun _ => none, fun _ => some "http://sqs/jobs"⟩ "jobs" ""
      = .ok ([("jobs", "http://sqs/jobs")],
          [.getQueueUrl "jobs", .createQueue "jobs"]) :=
  (sqsAck_empty_receipt_no_delete_still_resolves []
      ⟨fun _ => none, fun _ => some "http://sqs/jobs"⟩ "jobs").2
    rfl rfl "http://sqs/jobs" rfl

/-! ## Metadata round-tripping (C9) -/

theorem mget_eq_none_of_not_key {κ β : Type} [DecidableEq κ]
    (l : List (κ × β)) (k : κ) (h : ∀ kv ∈ l, kv.1 ≠ k) :
    mget l k = none := by
  induction l with
  | nil => rfl
  | cons hd tl ih =>
    have hk : hd.1 ≠ k := h hd (List.mem_cons_self hd tl)
    obtain ⟨a, b⟩ := hd
    simp only [mget, if_neg hk]
    exact ih fun kv hkv => h kv (List.mem_cons_of_mem _ hkv)

theorem mget_append_none {κ β : Type} [DecidableEq κ]
    (l₁ l₂ : List (κ × β)) (k : κ) (h : mget l₁ k = none) :
    mget (l₁ ++ l₂) k = mget l₂ k := by
  induction l₁ with
  | nil => rfl
  | cons hd tl ih =>
    obtain ⟨a, b⟩ := hd
    by_cases hk : a = k
    · simp [mget, hk] at h
    · simp only [mget, if_neg hk] at h
      simp only [List.cons_append, mget, if_neg hk]
      exact ih h

theorem mset_fresh {κ β : Type} [DecidableEq κ]
    (l : List (κ × β)) (k : κ) (v : β) (h : mget l k = none) :
    mset l k v = l ++ [(k, v)] := by
  induction l with
  | nil => rfl
  | cons hd tl ih =>
    obtain ⟨a, b⟩ := hd
    by_cases hk : a = k
    · simp [mget, hk] at h
    · simp only [mget, if_neg hk] at h
      simp [mset, hk, ih h]

theorem sqsAttrEntries_foldl (kvs : List (String × String)) :
    ∀ acc : List (String × MsgAttrValue),
    (∀ kv ∈ kvs, mget acc kv.1 = none) →
    (kvs.map Prod.fst).Nodup →
    kvs.foldl (fun acc kv => mset acc kv.1 ⟨"String", kv.2⟩) acc
      = acc ++ kvs.map fun kv => (kv.1, ⟨"String", kv.2⟩) := by
  induction kvs with
  | nil => intro acc _ _; simp
  | cons hd tl ih =>
    intro acc hdisj hnd
    obtain ⟨a, b⟩ := hd
    have hfresh : mget acc a = none := hdisj (a, b) (by simp)
    have hdisj₂ : ∀ kv ∈ tl,
        mget (acc ++ [(a, (⟨"String", b⟩ : MsgAttrValue))]) kv.1 = none := by
      intro kv hkv
      have hne : a ≠ kv.1 := by
        intro heq
        have hmem : a ∈ tl.map Prod.fst :=
          heq ▸ List.mem_map_of_mem Prod.fst hkv
        simp only [List.map_cons, List.nodup_cons] at hnd
        exact hnd.1 hmem
      rw [mget_append_none _ _ _ (hdisj kv (List.mem_cons_of_mem _ hkv))]
      simp [mget, hne]
    have hnd₂ : (tl.map Prod.fst).Nodup := by simpa using hnd.of_cons
    simp only [List.foldl_cons]
    rw [mset_fresh acc a ⟨"String", b⟩ hfresh, ih _ hdisj₂ hnd₂]
    simp

theorem sqsDecodeAttributes_foldl (mattrs : List (String × MsgAttrValue)) :
    ∀ acc : List (String × String),
    (∀ kv ∈ mattrs, mget acc kv.1 = none) →
    (mattrs.map Prod.fst).Nodup →
    (∀ kv ∈ mattrs, kv.1 ≠ "correlationId" ∧ kv.2.stringValue ≠ "") →
    mattrs.foldl sqsDecodeAttrStep acc
      = acc ++ mattrs.map fun kv => (kv.1, kv.2.stringValue) := by
  induction mattrs with
  | nil => intro acc _ _ _; simp
  | cons hd tl ih =>
    intro acc hdisj hnd hgood
    have hfresh : mget acc hd.1 = none := hdisj hd (by simp)
    have hg := hgood hd (by simp)
    have hdisj₂ : ∀ kv ∈ tl,
        mget (acc ++ [(hd.1, hd.2.stringValue)]) kv.1 = none := by
      intro kv hkv
      have hne : hd.1 ≠ kv.1 := by
        intro heq
        have hmem : hd.1 ∈ tl.map Prod.fst :=
          heq ▸ List.mem_map_of_mem Prod.fst hkv
        simp only [List.map_cons, List.nodup_cons] at hnd
        exact hnd.1 hmem
      rw [mget_append_none _ _ _ (hdisj kv (List.mem_cons_of_mem _ hkv))]
      simp [mget, hne]
    have hnd₂ : (tl.map Prod.fst).Nodup := by simpa using hnd.of_cons
    have hgood₂ : ∀ kv ∈ tl, kv.1 ≠ "correlationId" ∧ kv.2.stringValue ≠ "" :=
      fun kv hkv => hgood kv (List.mem_cons_of_mem _ hkv)
    simp only [List.foldl_cons, sqsDecodeAttrStep, if_pos hg]
    rw [mset_fresh acc hd.1 hd.2.stringValue hfresh, ih _ hdisj₂ hnd₂ hgood₂]
    simp

/-- `toMessageAttributes` computed on a supplied correlation id. -/
theorem toMessageAttributes_some_cid (c : String)
    (attrs : List (String × String)) :
    toMessageAttributes (some
        { correlationId := some c, attributes := some attrs })
      = if c ≠ "" then
          mset (sqsAttrEntries attrs) "correlationId" ⟨"String", c⟩
        else sqsAttrEntries attrs := rfl

/-- `toMessageAttributes` computed on an absent correlation id. -/
theorem toMessageAttributes_none_cid (attrs : List (String × String)) :
    toMessageAttributes (some
        { correlationId := none, attributes := some attrs })
      = sqsAttrEntries attrs := rfl

/-- C9 counterexample: the RabbitMQ driver does not round-trip an
absent `correlationId`.  `publish` with no options returns a message
whose `correlationId` is the generated message id
(`options?.correlationId || messageId`), not none. -/
theorem rabbit_publish_missing_cid_counterexample :
    ¬ ((rabbitPublishMessage (α := String) "m1" 0 "x" none).correlationId
        = none) := by
  decide

/-- C9 (amended): caller metadata is round-tripped verbatim by the
in-memory backend (publish returns it unchanged, pull returns stored
entries unchanged) and by the SQS message construction; the SQS
attribute wire encoding decodes back to exactly the caller's
`attributes` and `correlationId` provided no attribute is keyed
`correlationId`, attribute values are non-empty, and the correlation id
is absent or non-empty; the RabbitMQ backend returns `attributes`
verbatim and a non-empty caller `correlationId` verbatim, but replaces
an absent one by the generated message id. -/
theorem metadata_roundtrip_amended {α : Type} (s : InMemoryState α)
    (q : String) (payload : α) (o : Option PublishOptions)
    (now k : Nat) (uuid rcpt msgId : String) (mid seq : Option String)
    (attrs : List (String × String)) (cid : Option String)
    (hnd : (attrs.map Prod.fst).Nodup)
    (hki : ∀ kv ∈ attrs, kv.1 ≠ "correlationId")
    (hval : ∀ kv ∈ attrs, kv.2 ≠ "")
    (hcid : cid = none ∨ ∃ c, cid = some c ∧ c ≠ "") :
    ((publishInMemory s q payload o now uuid rcpt).1.attributes
        = o.bind (·.attributes) ∧
      (publishInMemory s q payload o now uuid rcpt).1.correlationId
        = o.bind (·.correlationId)) ∧
    (∀ m ∈ (pullInMemory s q k now).1, m ∈ mgetD s.queues q []) ∧
    ((sqsPublishMessage mid seq now payload o).attributes
        = o.bind (·.attributes) ∧
      (sqsPublishMessage mid seq now payload o).correlationId
        = o.bind (·.correlationId)) ∧
    (sqsDecodeAttributes (toMessageAttributes (some
        { correlationId := cid, attributes := some attrs })) = attrs ∧
      sqsDecodeCorrelationId (toMessageAttributes (some
        { correlationId := cid, attributes := some attrs })) = cid) ∧
    ((rabbitPublishMessage msgId now payload o).attributes
        = o.bind (·.attributes) ∧
      (truthyStr (o.bind (·.correlationId)) = true →
        (rabbitPublishMessage msgId now payload o).correlationId
          = o.bind (·.correlationId))) := by
  have henc : sqsAttrEntries attrs
      = attrs.map fun kv => (kv.1, (⟨"String", kv.2⟩ : MsgAttrValue)) := by
    have h := sqsAttrEntries_foldl attrs [] (fun kv _ => rfl) hnd
    simpa [sqsAttrEntries] using h
  have hkeys : ((attrs.map fun kv =>
        (kv.1, (⟨"String", kv.2⟩ : MsgAttrValue))).map Prod.fst)
      = attrs.map Prod.fst := by
    simp [List.map_map]
  have hnd₂ : ((attrs.map fun kv =>
      (kv.1, (⟨"String", kv.2⟩ : MsgAttrValue))).map Prod.fst).Nodup := by
    rw [hkeys]; exact hnd
  have hnone : mget (attrs.map fun kv =>
      (kv.1, (⟨"String", kv.2⟩ : MsgAttrValue))) "correlationId" = none := by
    apply mget_eq_none_of_not_key
    intro kv hkv
    obtain ⟨kv₀, hkv₀, hkveq⟩ := List.mem_map.mp hkv
    rw [← hkveq]
    exact hki kv₀ hkv₀
  have hgood : ∀ kv ∈ (attrs.map fun kv =>
      (kv.1, (⟨"String", kv.2⟩ : MsgAttrValue))),
      kv.1 ≠ "correlationId" ∧ kv.2.stringValue ≠ "" := by
    intro kv hkv
    obtain ⟨kv₀, hkv₀, hkveq⟩ := List.mem_map.mp hkv
    rw [← hkveq]
    exact ⟨hki kv₀ hkv₀, hval kv₀ hkv₀⟩
  have hdec : sqsDecodeAttributes (attrs.map fun kv =>
      (kv.1, (⟨"String", kv.2⟩ : MsgAttrValue))) = attrs := by
    have h := sqsDecodeAttributes_foldl
      (attrs.map fun kv => (kv.1, (⟨"String", kv.2⟩ : MsgAttrValue)))
      [] (fun kv _ => rfl) hnd₂ hgood
    unfold sqsDecodeAttributes
    rw [h]
    simp only [List.nil_append, List.map_map]
    exact List.map_id attrs
  refine ⟨⟨?_, ?_⟩, ?_, ⟨rfl, rfl⟩, ?_, rfl, ?_⟩
  · unfold publishInMemory
    split <;> rfl
  · unfold publishInMemory
    split <;> rfl
  · intro m hm
    simp only [pullInMemory] at hm
    exact (List.mem_filter.mp (List.mem_of_mem_take hm)).1
  · rcases hcid with hc | ⟨c, hc, hcne⟩
    · subst hc
      constructor
      · rw [toMessageAttributes_none_cid, henc]
        exact hdec
      · rw [toMessageAttributes_none_cid, henc]
        simp [sqsDecodeCorrelationId, hnone]
    · subst hc
      have hsplit : toMessageAttributes (some
          { correlationId := some c, attributes := some attrs })
          = (attrs.map fun kv =>
              (kv.1, (⟨"String", kv.2⟩ : MsgAttrValue)))
            ++ [("correlationId", ⟨"String", c⟩)] := by
        rw [toMessageAttributes_some_cid, if_pos hcne, henc,
          mset_fresh _ _ _ hnone]
      constructor
      · rw [hsplit]
        unfold sqsDecodeAttributes
        rw [List.foldl_append]
        have hfold : (attrs.map fun kv =>
            (kv.1, (⟨"String", kv.2⟩ : MsgAttrValue))).foldl
              sqsDecodeAttrStep [] = attrs := hdec
        rw [hfold]
        simp [sqsDecodeAttrStep]
      · rw [hsplit]
        simp [sqsDecodeCorrelationId,
          mget_append_none _ _ _ hnone, mget]
  · cases hc : o.bind (·.correlationId) with
    | none => simp [truthyStr, hc]
    | some c =>
      intro h
      have hcne : c ≠ "" := by
        simpa [truthyStr] using h
      simp [rabbitPublishMessage, hc, hcne]

/-- Closed witness for `metadata_roundtrip_amended`: one attribute and
a non-empty correlation id survive the SQS encode/decode round trip. -/
theorem metadata_roundtrip_amended_witness :
    sqsDecodeAttributes (toMessageAttributes (some
        { correlationId := some "cid-1", attributes := some [("foo", "bar")] }))
      = [("foo", "bar")] ∧
    sqsDecodeCorrelationId (toMessageAttributes (some
        { correlationId := some "cid-1", attributes := some [("foo", "bar")] }))
      = some "cid-1" :=
  (metadata_roundtrip_amended (α := String) ⟨[]⟩ "q" "x" none 0 1 "i" "r"
    "m1" none none [("foo", "bar")] (some "cid-1") (by decide) (by decide)
    (by decide) (Or.inr ⟨"cid-1", rfl, by decide⟩)).2.2.2.1

/-- Once inactive, a subscription stays inactive: no step resets the
flag. -/
theorem pollStep_preserves_inactive {s s₁ : SubState} {a : PollAct}
    (h : PollStep s a s₁) (ha : s.active = false) : s₁.active = false := by
  cases h <;> simp_all [unsubscribeSub]

/-- From an inactive state no step pulls or reschedules. -/
theorem pollStep_inactive_no_pull_no_resched {s s₁ : SubState}
    {a : PollAct} (h : PollStep s a s₁) (ha : s.active = false) :
    a ≠ PollAct.pullExec ∧ a ≠ PollAct.reschedule := by
  cases h <;> simp_all

/-- Along any trace from an inactive state, no pull executes and no
poll is scheduled. -/
theorem pollTrace_inactive_no_pull_no_resched (s₀ s₂ : SubState)
    (acts : List PollAct) (ht : PollTrace s₀ acts s₂)
    (ha : s₀.active = false) :
    ∀ a ∈ acts, a ≠ PollAct.pullExec ∧ a ≠ PollAct.reschedule := by
  induction ht with
  | refl s => intro a hmem; cases hmem
  | step h ht ih =>
    intro a hmem
    rcases List.mem_cons.mp hmem with rfl | hmem₂
    · exact pollStep_inactive_no_pull_no_resched h ha
    · exact ih (pollStep_preserves_inactive h ha) a hmem₂

/-- C7: after `unsubscribe` returns — from any prior state, a poll
in flight included — no further pull is ever executed and no further
poll is ever scheduled along any continuation of the system, and
`unsubscribe` is idempotent (a second call is a no-op). -/
theorem unsubscribe_stops_polling (s s₁ : SubState)
    (acts : List PollAct) (ht : PollTrace (unsubscribeSub s) acts s₁) :
    (∀ a ∈ acts, a ≠ PollAct.pullExec ∧ a ≠ PollAct.reschedule) ∧
    unsubscribeSub (unsubscribeSub s) = unsubscribeSub s := by
  constructor
  · exact pollTrace_inactive_no_pull_no_resched _ _ _ ht rfl
  · cases hp : s.phase <;> simp [unsubscribeSub, hp]

/-- Closed witness for `unsubscribe_stops_polling`: unsubscribe during
an in-flight poll; the poll finishes without rescheduling, a second
unsubscribe runs, and neither action is a pull or a reschedule. -/
theorem unsubscribe_stops_polling_witness :
    PollAct.finishNoSched ≠ PollAct.pullExec ∧
    PollAct.unsub ≠ PollAct.reschedule :=
  ⟨((unsubscribe_stops_polling ⟨true, .running⟩ ⟨false, .idle⟩
      [.finishNoSched, .unsub]
      (PollTrace.step (PollStep.finish rfl rfl)
        (PollTrace.step PollStep.unsub (PollTrace.refl _)))).1
      PollAct.finishNoSched (by simp)).1,
   ((unsubscribe_stops_polling ⟨true, .running⟩ ⟨false, .idle⟩
      [.finishNoSched, .unsub]
      (PollTrace.step (PollStep.finish rfl rfl)
        (PollTrace.step PollStep.unsub (PollTrace.refl _)))).1
      PollAct.unsub (by simp)).2⟩

/-! ## Delayed publish timing (C8) -/

/-- Buffer membership survives backwards through `push`: an entry of a
buffer after a push was already stored, or is the pushed message. -/
theorem mem_pushInMemory {α : Type} {s : InMemoryState α}
    {queue q : String} {msg m : StoredMessage α}
    (hm : m ∈ mgetD (pushInMemory s queue msg).queues q []) :
    m ∈ mgetD s.queues q [] ∨ m = msg := by
  by_cases hq : queue = q
  · subst hq
    rw [show (pushInMemory s queue msg).queues
        = mset s.queues queue (mgetD s.queues queue [] ++ [msg]) from rfl,
      mgetD_mset_self] at hm
    rcases List.mem_append.mp hm with h | h
    · exact Or.inl h
    · exact Or.inr (by simpa using h)
  · rw [show (pushInMemory s queue msg).queues
        = mset s.queues queue (mgetD s.queues queue [] ++ [msg]) from rfl,
      mgetD_mset_ne _ _ _ _ _ hq] at hm
    exact Or.inl hm

/-- The buffer kept back by `pull` only contains entries of the old
buffer. -/
theorem mem_pullInMemory_rest {α : Type} {s : InMemoryState α}
    {queue q : String} {k now : Nat} {m : StoredMessage α}
    (hm : m ∈ mgetD (pullInMemory s queue k now).2.queues q []) :
    m ∈ mgetD s.queues q [] := by
  by_cases hq : queue = q
  · subst hq
    rw [show (pullInMemory s queue k now).2.queues
        = mset s.queues queue
          (((mgetD s.queues queue []).filter
            (fun m => !(isExpired now m))).drop k) from rfl,
      mgetD_mset_self] at hm
    exact (List.mem_filter.mp (List.mem_of_mem_drop hm)).1
  · rw [show (pullInMemory s queue k now).2.queues
        = mset s.queues queue
          (((mgetD s.queues queue []).filter
            (fun m => !(isExpired now m))).drop k) from rfl,
      mgetD_mset_ne _ _ _ _ _ hq] at hm
    exact hm

/-- The buffer kept by `ack` only contains entries of the old
buffer. -/
theorem mem_ackInMemory {α : Type} {s : InMemoryState α}
    {queue q receipt : String} {m : StoredMessage α}
    (hm : m ∈ mgetD (ackInMemory s queue receipt).queues q []) :
    m ∈ mgetD s.queues q [] := by
  by_cases hq : queue = q
  · subst hq
    rw [show (ackInMemory s queue receipt).queues
        = mset s.queues queue
          ((mgetD s.queues queue []).filter
            (fun m => m.receipt ≠ receipt)) from rfl,
      mgetD_mset_self] at hm
    exact (List.mem_filter.mp hm).1
  · rw [show (ackInMemory s queue receipt).queues
        = mset s.queues queue
          ((mgetD s.queues queue []).filter
            (fun m => m.receipt ≠ receipt)) from rfl,
      mgetD_mset_ne _ _ _ _ _ hq] at hm
    exact hm

/-- `absentUntil` is preserved by every step that does not publish a
message with the watched id. -/
theorem timedStep_absentUntil {α : Type} [DecidableEq α]
    {s s₁ : TimedState α} {a : TimedAct α} {msgId : String}
    {deadline : Nat} (h : TimedStep s a s₁)
    (hfresh : publishUuid a ≠ some msgId)
    (hinv : absentUntil msgId deadline s) :
    absentUntil msgId deadline s₁ := by
  obtain ⟨hpend, hbuf⟩ := hinv
  cases h with
  | publishNow hopt =>
    refine ⟨hpend, ?_⟩
    intro htime q m hm
    rcases mem_pushInMemory hm with h₁ | rfl
    · exact hbuf htime q m h₁
    · simp only [publishUuid, ne_eq, Option.some.injEq] at hfresh
      simpa [mkStoredMessage] using hfresh
  | publishDelayed hd hpos =>
    refine ⟨?_, ?_⟩
    · intro t q m hm hid
      rcases List.mem_cons.mp hm with heq | hold
      · injection heq with ht hrest
        injection hrest with hq hm'
        subst hm'
        simp only [publishUuid, ne_eq, Option.some.injEq] at hfresh
        exact absurd (by simpa [mkStoredMessage] using hid) hfresh
      · exact hpend t q m hold hid
    · intro htime q m hm
      exact hbuf htime q m hm
  | fireDelayed hmem ht =>
    refine ⟨?_, ?_⟩
    · intro t' q' m' hm' hid
      exact hpend t' q' m' (List.mem_of_mem_erase hm') hid
    · intro htime q' m' hm'
      have htime' : s.time < deadline := htime
      rcases mem_pushInMemory hm' with h₁ | rfl
      · exact hbuf htime' q' m' h₁
      · intro hid
        have hD := hpend _ _ _ hmem hid
        omega
  | pull =>
    refine ⟨hpend, ?_⟩
    intro htime q' m' hm'
    exact hbuf htime q' m' (mem_pullInMemory_rest hm')
  | ack =>
    refine ⟨hpend, ?_⟩
    intro htime q' m' hm'
    exact hbuf htime q' m' (mem_ackInMemory hm')
  | tick dt =>
    refine ⟨hpend, ?_⟩
    intro htime q' m' hm'
    have htime' : s.time + dt < deadline := htime
    exact hbuf (by omega) q' m' hm'

/-- `absentUntil` is preserved along every trace free of publishes with
the watched id. -/
theorem timedTrace_absentUntil {α : Type} [DecidableEq α]
    {s s₁ : TimedState α} {acts : List (TimedAct α)} {msgId : String}
    {deadline : Nat} (h : TimedTrace s acts s₁)
    (hacts : ∀ a ∈ acts, publishUuid a ≠ some msgId)
    (hinv : absentUntil msgId deadline s) :
    absentUntil msgId deadline s₁ := by
  induction h with
  | refl s => exact hinv
  | step hstep htr ih =>
    exact ih (fun a ha => hacts a (List.mem_cons_of_mem _ ha))
      (timedStep_absentUntil hstep (hacts _ (List.mem_cons_self _ _))
        hinv)

/-- C8: a message published on the in-memory backend with
`delaySeconds = d > 0` is scheduled, not inserted: its buffer entry
does not exist, so no `pull` of any queue can return it, in every state
reachable before `d` seconds have elapsed since publish — provided its
fresh uuid is not republished. -/
theorem delayed_publish_invisible_until_elapsed {α : Type}
    [DecidableEq α] (s₀ sEnd : TimedState α) (queue : String)
    (payload : α) (options : Option PublishOptions)
    (uuid rcpt : String) (d : Nat) (acts : List (TimedAct α))
    (hd : options.bind (·.delaySeconds) = some d) (hpos : d ≠ 0)
    (hpend₀ : ∀ t q m, (t, q, m) ∈ s₀.pending → m.id ≠ uuid)
    (hbuf₀ : ∀ q m, m ∈ mgetD s₀.mem.queues q [] → m.id ≠ uuid)
    (htr : TimedTrace
      { s₀ with
        pending :=
          (s₀.time + d * 1000, queue,
              mkStoredMessage queue payload options s₀.time uuid rcpt)
            :: s₀.pending }
      acts sEnd)
    (hacts : ∀ a ∈ acts, publishUuid a ≠ some uuid) :
    TimedStep s₀ (.publish queue payload options uuid rcpt)
      { s₀ with
        pending :=
          (s₀.time + d * 1000, queue,
              mkStoredMessage queue payload options s₀.time uuid rcpt)
            :: s₀.pending } ∧
    (sEnd.time < s₀.time + d * 1000 →
      (∀ q m, m ∈ mgetD sEnd.mem.queues q [] → m.id ≠ uuid) ∧
      (∀ q k m, m ∈ (pullInMemory sEnd.mem q k sEnd.time).1 →
        m.id ≠ uuid)) := by
  constructor
  · exact TimedStep.publishDelayed hd hpos
  · have hinv₀ : absentUntil uuid (s₀.time + d * 1000)
        { s₀ with
          pending :=
            (s₀.time + d * 1000, queue,
                mkStoredMessage queue payload options s₀.time uuid rcpt)
              :: s₀.pending } := by
      constructor
      · intro t q m hm hid
        rcases List.mem_cons.mp hm with heq | hold
        · injection heq with ht _
          omega
        · exact absurd hid (hpend₀ t q m hold)
      · intro _ q m hm
        exact hbuf₀ q m hm
    have hend := timedTrace_absentUntil htr hacts hinv₀
    intro htime
    refine ⟨hend.2 htime, ?_⟩
    intro q k m hm
    have hmem : m ∈ mgetD sEnd.mem.queues q [] := by
      simp only [pullInMemory] at hm
      exact (List.mem_filter.mp (List.mem_of_mem_take hm)).1
    exact hend.2 htime q m hmem

/-- Closed witness for `delayed_publish_invisible_until_elapsed`:
publish with `delaySeconds = 1` at time 0, tick to 500 ms, pull — the
delayed message is not in the queue buffer. -/
theorem delayed_publish_invisible_witness :
    mkStoredMessage (α := String) "q" "x"
        (some { delaySeconds := some 1 }) 0 "u1" "r1"
      ∉ mgetD (InMemoryState.queues (α := String) ⟨[("q", [])]⟩)
          "q" [] := by
  intro hmem
  have h := delayed_publish_invisible_until_elapsed
      (α := String)
      ⟨0, ⟨[]⟩, []⟩
      ⟨500, ⟨[("q", [])]⟩,
        [(1000, "q", mkStoredMessage "q" "x"
          (some { delaySeconds := some 1 }) 0 "u1" "r1")]⟩
      "q" "x" (some { delaySeconds := some 1 }) "u1" "r1" 1
      [.tick 500, .pull "q" 1]
      rfl (by decide)
      (fun t q m hm => absurd hm (List.not_mem_nil _))
      (fun q m hm => absurd hm (List.not_mem_nil _))
      (TimedTrace.step (TimedStep.tick 500)
        (TimedTrace.step TimedStep.pull (TimedTrace.refl _)))
      (by
        intro a ha
        rcases List.mem_cons.mp ha with rfl | ha₂
        · simp [publishUuid]
        · rcases List.mem_cons.mp ha₂ with rfl | ha₃
          · simp [publishUuid]
          · cases ha₃)
  exact (h.2 (by decide)).1 "q"
    (mkStoredMessage "q" "x" (some { delaySeconds := some 1 })
      0 "u1" "r1")
    hmem rfl

/-- Closed witness for `pull_inMemory_bounds_order_expiry` at a
concrete one-message queue. -/
theorem pull_inMemory_bounds_order_expiry_witness :
    (pullInMemory (α := String)
        ⟨[("q", [mkStoredMessage "q" "x" none 0 "i" "r"])]⟩
        "q" 2 5).1.length ≤ 2 ∧
    ((mkStoredMessage (α := String) "q" "x" none 0 "i" "r")
        ∈ (pullInMemory (α := String)
            ⟨[("q", [mkStoredMessage "q" "x" none 0 "i" "r"])]⟩
            "q" 2 5).1 ∨
      (mkStoredMessage (α := String) "q" "x" none 0 "i" "r")
        ∈ mgetD (pullInMemory (α := String)
            ⟨[("q", [mkStoredMessage "q" "x" none 0 "i" "r"])]⟩
            "q" 2 5).2.queues "q" []) :=
  ⟨(pull_inMemory_bounds_order_expiry
      ⟨[("q", [mkStoredMessage "q" "x" none 0 "i" "r"])]⟩ "q" 2 5).1,
   ((pull_inMemory_bounds_order_expiry
      ⟨[("q", [mkStoredMessage "q" "x" none 0 "i" "r"])]⟩ "q" 2 5).2.2.2
      (mkStoredMessage "q" "x" none 0 "i" "r") (by decide)).mpr
      (by decide)⟩

end NestQueue
